import Mathlib

/-!
# Verification of the rootfs-builder image-assembly pipeline

Shallow embedding of the `rootfs` build scripts (`src/rootfs/sub.py`, with the
variant in `src/rootfs/test.py` where noted) and proofs about the embedded
operations.  Files are modelled as lists of lines, a line as a `List Char`
(Python reads the config file as text, line by line); filesystem state is
modelled as association lists from paths to modes; external commands are
modelled by their observable outcome.
-/

namespace RootfsBuilder

/-! ## Python string primitives

`str.strip`, `str.startswith`, `str.endswith` on `List Char`, as used by the
feature-toggle loop of `configure_and_install_busybox`. -/

/-- The characters `str.strip()` removes: Python strips ASCII whitespace
(space, tab, newline, carriage return, vertical tab, form feed). -/
def isSpaceChar (c : Char) : Bool :=
  c = ' ' || c = '\t' || c = '\n' || c = '\r' || c = '\x0b' || c = '\x0c'

/-- Remove trailing whitespace (the right half of `str.strip()`). -/
def dropTrailingSpaces (l : List Char) : List Char :=
  (l.reverse.dropWhile isSpaceChar).reverse

/-- Python `line.strip()`. -/
def stripChars (l : List Char) : List Char :=
  dropTrailingSpaces (l.dropWhile isSpaceChar)

/-- Python `line.startswith(p)` for `p` the first argument. -/
def startsWithChars : List Char → List Char → Bool
  | [], _ => true
  | _ :: _, [] => false
  | c :: p, d :: l => c == d && startsWithChars p l

/-- Python `s.endswith(n)` for `n` the first argument. -/
def endsWithChars (n l : List Char) : Bool :=
  startsWithChars n.reverse l.reverse

/-- Python `s.endswith(('=y', '=m'))` from the patch loop. -/
def endsEnabled (l : List Char) : Bool :=
  endsWithChars ['=', 'y'] l || endsWithChars ['=', 'm'] l

/-- Python `feature.upper()`. -/
def upperChars (l : List Char) : List Char :=
  l.map Char.toUpper

/-! ## Feature-Toggle Config Patcher

`configure_and_install_busybox`, `src/rootfs/sub.py` lines 201-233
(identical loop in `src/rootfs/test.py` lines 776-808). -/

/-- `feature_pattern = f"CONFIG_{feature.upper()}="` (sub.py line 212). -/
def featurePattern (feature : List Char) : List Char :=
  "CONFIG_".data ++ upperChars feature ++ ['=']

/-- The replacement line `f"# {feature_pattern} is not set\n"` written for an
enabled feature (sub.py line 216).  Note it interpolates `feature_pattern`,
which ends in `=`. -/
def disabledForm (feature : List Char) : List Char :=
  "# ".data ++ featurePattern feature ++ " is not set\n".data

/-- The string the already-disabled test compares against:
`f"# {feature_pattern} is not set"` (sub.py line 220). -/
def disabledStrippedForm (feature : List Char) : List Char :=
  "# ".data ++ featurePattern feature ++ " is not set".data

/-- The inner `for feature in disabled_features:` loop of sub.py lines 210-226,
applied to a single line.  `some l` means line `l` is appended to
`modified_lines` for this input line; `none` means no line is appended (which
happens exactly in the "already disabled" branch, where the code sets
`modified = True` without appending anything). -/
def patchLine (features : List (List Char)) (line : List Char) : Option (List Char) :=
  match features with
  | [] => some line
  | f :: rest =>
    if startsWithChars (featurePattern f) line then
      if endsEnabled (stripChars line) then some (disabledForm f)
      else patchLine rest line
    else if stripChars line = disabledStrippedForm f then none
    else patchLine rest line

/-- The whole rewrite loop over `lines` (sub.py lines 208-227): the output
`modified_lines` that is written back over `.config`. -/
def patchLines (features : List (List Char)) (lines : List (List Char)) : List (List Char) :=
  lines.filterMap (patchLine features)

/-- The patching phase including the `if disabled_features:` guard
(sub.py line 201): with no features requested the file is not rewritten. -/
def patchConfig (features : List (List Char)) (lines : List (List Char)) : List (List Char) :=
  if features.isEmpty then lines else patchLines features lines

/-- The feature name `"FOO"` used as a concrete test input. -/
def fooFeature : List Char := "FOO".data

/-- A concrete enabled config line for `FOO`. -/
def enabledFooLine : List Char := "CONFIG_FOO=y\n".data

example : patchConfig [fooFeature] [enabledFooLine] = [disabledForm fooFeature] := by decide

example : patchConfig [fooFeature] [disabledForm fooFeature] = [] := by decide

example : disabledForm fooFeature = "# CONFIG_FOO= is not set\n".data := by decide

/-! ### Lemmas about the patch loop -/

theorem dropWhile_append_singleton {p : Char → Bool} {c : Char} (hc : p c = false)
    (l : List Char) : (l ++ [c]).dropWhile p = l.dropWhile p ++ [c] := by
  induction l with
  | nil => simp [List.dropWhile, hc]
  | cons a l ih =>
    by_cases ha : p a
    · simp [List.dropWhile, ha, ih]
    · simp [List.dropWhile, ha]

theorem dropTrailingSpaces_cons {c : Char} (hc : isSpaceChar c = false) (t : List Char) :
    dropTrailingSpaces (c :: t) = c :: dropTrailingSpaces t := by
  unfold dropTrailingSpaces
  rw [show (c :: t).reverse = t.reverse ++ [c] by simp,
    dropWhile_append_singleton hc, List.reverse_append]
  simp

theorem stripChars_cons {c : Char} (hc : isSpaceChar c = false) (t : List Char) :
    stripChars (c :: t) = c :: dropTrailingSpaces t := by
  unfold stripChars
  rw [List.dropWhile_cons_of_neg (by simp [hc]), dropTrailingSpaces_cons hc]

/-- `featurePattern` always begins with the character `C`. -/
theorem featurePattern_eq_cons (f : List Char) :
    featurePattern f = 'C' :: ("ONFIG_".data ++ upperChars f ++ ['=']) := by
  simp [featurePattern]

/-- `disabledForm` always begins with the character `#`. -/
theorem disabledForm_eq_cons (g : List Char) :
    disabledForm g = '#' :: (" ".data ++ featurePattern g ++ " is not set\n".data) := by
  simp [disabledForm]

/-- `disabledStrippedForm` always begins with the character `#`. -/
theorem disabledStrippedForm_eq_cons (g : List Char) :
    disabledStrippedForm g = '#' :: (" ".data ++ featurePattern g ++ " is not set".data) := by
  simp [disabledStrippedForm]

/-- A feature pattern (starting with `C`) is never a prefix of a disabled-form
line (starting with `#`). -/
theorem startsWith_pattern_disabledForm (f g : List Char) :
    startsWithChars (featurePattern f) (disabledForm g) = false := by
  rw [featurePattern_eq_cons, disabledForm_eq_cons]
  simp [startsWithChars]

/-- If a line starts with a feature pattern, its first character is `C`. -/
theorem exists_tail_of_startsWith_pattern {f line : List Char}
    (h : startsWithChars (featurePattern f) line = true) :
    ∃ t, line = 'C' :: t := by
  rw [featurePattern_eq_cons] at h
  cases line with
  | nil => simp [startsWithChars] at h
  | cons d t =>
    simp only [startsWithChars, Bool.and_eq_true, beq_iff_eq] at h
    exact ⟨t, by rw [h.1]⟩

/-- A line that starts with a feature pattern never strips to a
disabled-form comparison string (they differ in their first character). -/
theorem strip_ne_disabledStripped_of_startsWith {f line : List Char} (g : List Char)
    (h : startsWithChars (featurePattern f) line = true) :
    stripChars line ≠ disabledStrippedForm g := by
  obtain ⟨t, rfl⟩ := exists_tail_of_startsWith_pattern h
  rw [stripChars_cons (by decide), disabledStrippedForm_eq_cons]
  simp

/-- Every line the inner loop emits is either the input line passed through
unmodified or the disabled form of one of the requested features. -/
theorem patchLine_out {features : List (List Char)} {line out : List Char}
    (h : patchLine features line = some out) :
    out = line ∨ ∃ g ∈ features, out = disabledForm g := by
  induction features with
  | nil =>
    simp only [patchLine, Option.some.injEq] at h
    exact Or.inl h.symm
  | cons f rest ih =>
    simp only [patchLine] at h
    split at h
    · split at h
      · simp only [Option.some.injEq] at h
        exact Or.inr ⟨f, by simp, h.symm⟩
      · rcases ih h with h' | ⟨g, hg, h'⟩
        · exact Or.inl h'
        · exact Or.inr ⟨g, by simp [hg], h'⟩
    · split at h
      · exact absurd h (by simp)
      · rcases ih h with h' | ⟨g, hg, h'⟩
        · exact Or.inl h'
        · exact Or.inr ⟨g, by simp [hg], h'⟩

/-- No line emitted by the inner loop is in the enabled (`=y`/`=m`) form of any
requested feature. -/
theorem patchLine_no_enabled {features : List (List Char)} {line out : List Char}
    (h : patchLine features line = some out) :
    ∀ f ∈ features,
      ¬(startsWithChars (featurePattern f) out = true ∧ endsEnabled (stripChars out) = true) := by
  induction features with
  | nil => intro f hf; simp at hf
  | cons f' rest ih =>
    intro f hf
    simp only [patchLine] at h
    split at h
    case isTrue h1 =>
      split at h
      case isTrue h2 =>
        simp only [Option.some.injEq] at h
        subst h
        simp [startsWith_pattern_disabledForm]
      case isFalse h2 =>
        rcases List.mem_cons.mp hf with rfl | hf'
        · rcases patchLine_out h with rfl | ⟨g, _, rfl⟩
          · intro hc
            exact h2 hc.2
          · simp [startsWith_pattern_disabledForm]
        · exact ih h f hf'
    case isFalse h1 =>
      split at h
      · exact absurd h (by simp)
      · rcases List.mem_cons.mp hf with rfl | hf'
        · rcases patchLine_out h with rfl | ⟨g, _, rfl⟩
          · intro hc
            rw [hc.1] at h1
            exact h1 rfl
          · simp [startsWith_pattern_disabledForm]
        · exact ih h f hf'

/-- A line in the enabled form of a requested feature is always rewritten by
the inner loop into the disabled form of some requested feature. -/
theorem patchLine_rewrites_enabled {features : List (List Char)} {line f : List Char}
    (hf : f ∈ features)
    (hs : startsWithChars (featurePattern f) line = true)
    (he : endsEnabled (stripChars line) = true) :
    ∃ g ∈ features, patchLine features line = some (disabledForm g) := by
  induction features with
  | nil => simp at hf
  | cons f' rest ih =>
    by_cases h1 : startsWithChars (featurePattern f') line = true
    · exact ⟨f', by simp, by simp [patchLine, h1, he]⟩
    · rcases List.mem_cons.mp hf with rfl | hf'
      · exact absurd hs h1
      · obtain ⟨g, hg, hrec⟩ := ih hf'
        refine ⟨g, by simp [hg], ?_⟩
        simp only [patchLine, h1, if_neg (strip_ne_disabledStripped_of_startsWith f' hs)]
        simpa using hrec

/-- For a nonempty feature list the guard at sub.py line 201 is taken and the
rewrite loop runs. -/
theorem patchConfig_of_mem {features : List (List Char)} {f : List Char} (hf : f ∈ features)
    (lines : List (List Char)) : patchConfig features lines = patchLines features lines := by
  have : features.isEmpty = false := by
    cases features with
    | nil => simp at hf
    | cons a l => rfl
  simp [patchConfig, this]

/-- C1.  The Feature-Toggle Config Patcher is NOT idempotent: on the file
consisting of the single line `CONFIG_FOO=y` with requested feature `FOO`, one
application produces the line `# CONFIG_FOO= is not set`, and a second
application deletes that line (the "already disabled" branch of the loop sets
`modified = True` without appending the line to `modified_lines`), so the
twice-patched file is empty and differs from the once-patched file. -/
theorem c1_patcher_not_idempotent :
    patchConfig [fooFeature] (patchConfig [fooFeature] [enabledFooLine]) = [] ∧
    patchConfig [fooFeature] [enabledFooLine] = [disabledForm fooFeature] ∧
    patchConfig [fooFeature] (patchConfig [fooFeature] [enabledFooLine]) ≠
      patchConfig [fooFeature] [enabledFooLine] := by
  refine ⟨by decide, by decide, ?_⟩
  intro h
  rw [show patchConfig [fooFeature] [enabledFooLine] = [disabledForm fooFeature] by decide,
    show patchConfig [fooFeature] [disabledForm fooFeature] = [] by decide] at h
  exact absurd h (by decide)

/-- C2 counterexample.  Patching `CONFIG_FOO=y` for feature `FOO` does not
produce the claimed disabled form `# CONFIG_FOO is not set`: the code
interpolates `feature_pattern` (which ends in `=`) into the replacement line,
so the output is the single line `# CONFIG_FOO= is not set` instead. -/
theorem c2_counterexample :
    patchConfig [fooFeature] [enabledFooLine] = ["# CONFIG_FOO= is not set\n".data] ∧
    "# CONFIG_FOO is not set\n".data ∉ patchConfig [fooFeature] [enabledFooLine] := by
  constructor
  · decide
  · intro h
    rw [show patchConfig [fooFeature] [enabledFooLine] = [disabledForm fooFeature] by decide] at h
    simp only [List.mem_singleton] at h
    exact absurd h (by decide)

/-- C2 (amended).  After the patching phase of `configure_and_install_busybox`
runs, (1) every line that is in the enabled (`=y`/`=m`) form of a requested
feature is rewritten by the loop to the disabled form
`# CONFIG_<FEATURE>= is not set` of some requested feature, and (2) no line of
the output file is in the enabled form of any requested feature. -/
theorem c2_patcher_disables_features :
    (∀ (features : List (List Char)) (line f : List Char), f ∈ features →
      startsWithChars (featurePattern f) line = true →
      endsEnabled (stripChars line) = true →
      ∃ g ∈ features, patchLine features line = some (disabledForm g)) ∧
    (∀ (features : List (List Char)) (file : List (List Char)) (f out : List Char),
      f ∈ features → out ∈ patchConfig features file →
      ¬(startsWithChars (featurePattern f) out = true ∧
        endsEnabled (stripChars out) = true)) := by
  refine ⟨fun features line f hf hs he => patchLine_rewrites_enabled hf hs he, ?_⟩
  intro features file f out hf hout
  rw [patchConfig_of_mem hf] at hout
  obtain ⟨line, _, hline⟩ := List.mem_filterMap.mp hout
  exact patchLine_no_enabled hline f hf

/-- C2 witness: the amended theorem applied at the concrete input
`CONFIG_FOO=y` with feature list `[FOO]`. -/
theorem c2_patcher_disables_features_witness :
    (fooFeature ∈ [fooFeature] ∧
      startsWithChars (featurePattern fooFeature) enabledFooLine = true ∧
      endsEnabled (stripChars enabledFooLine) = true) ∧
    (∃ g ∈ [fooFeature], patchLine [fooFeature] enabledFooLine = some (disabledForm g)) ∧
    ¬(startsWithChars (featurePattern fooFeature) (disabledForm fooFeature) = true ∧
      endsEnabled (stripChars (disabledForm fooFeature)) = true) :=
  ⟨⟨by decide, by decide, by decide⟩,
    c2_patcher_disables_features.1 [fooFeature] enabledFooLine fooFeature
      (by decide) (by decide) (by decide),
    c2_patcher_disables_features.2 [fooFeature] [enabledFooLine] fooFeature
      (disabledForm fooFeature) (by decide)
      (by rw [show patchConfig [fooFeature] [enabledFooLine] = [disabledForm fooFeature] by decide]
          simp)⟩

/-- C10.  With an empty `disabled_features` list the `if disabled_features:`
guard at sub.py line 201 skips the patching phase, and (even without the
guard) the rewrite loop with no features leaves every line unchanged; the
config file is byte-for-byte unmodified. -/
theorem c10_empty_features_noop :
    ∀ lines : List (List Char), patchConfig [] lines = lines ∧ patchLines [] lines = lines := by
  intro lines
  constructor
  · simp [patchConfig]
  · simp [patchLines, patchLine]

/-! ## External command invocation

`run_command`, `src/rootfs/sub.py` lines 62-108.  A `subprocess.run(...,
check=True)` call either succeeds, raises `subprocess.CalledProcessError`
(non-zero exit status), or raises `FileNotFoundError` (missing executable).
Exceptions are modelled by `PyExc`; `SystemExit` (raised by `sys.exit`) derives
from `BaseException` only, so an `except Exception` handler does not catch it. -/

/-- Observable outcome of one `subprocess.run(..., check=True)` invocation. -/
inductive CmdResult where
  | success
  | nonzeroExit
  | notFound
deriving DecidableEq

/-- The Python exceptions relevant to the pipeline.  `ioError` stands for
`OSError` and its subclasses (`FileNotFoundError` included). -/
inductive PyExc where
  | systemExit (code : Nat)
  | calledProcessError
  | ioError
deriving DecidableEq

deriving instance DecidableEq for Except

/-- Whether `except Exception` catches the exception: `SystemExit` derives from
`BaseException` but not from `Exception`. -/
def catchable : PyExc → Bool
  | .systemExit _ => false
  | _ => true

/-- `run_command(commands, ..., check_root=checkRoot)` with the effective uid
root-ness `isRoot`.  Returns `none` when the helper returns normally to its
caller (only on command success) and `some e` when exception `e` escapes.  The
source catches `FileNotFoundError` and `subprocess.CalledProcessError`
internally, prints diagnostics, and calls `sys.exit(1)` in both handlers
(sub.py lines 96-108); the `check_root` precondition failure also calls
`sys.exit(1)` (lines 67-69). -/
def run_command (res : CmdResult) (checkRoot isRoot : Bool) : Option PyExc :=
  if checkRoot && !isRoot then some (.systemExit 1)
  else
    match res with
    | .success => none
    | .nonzeroExit => some (.systemExit 1)
    | .notFound => some (.systemExit 1)

theorem run_command_none_or (res : CmdResult) (checkRoot isRoot : Bool) :
    run_command res checkRoot isRoot = none ∨
    run_command res checkRoot isRoot = some (.systemExit 1) := by
  cases res <;> by_cases h : checkRoot && !isRoot <;> simp [run_command, h]

theorem run_command_eq_none_iff (res : CmdResult) (isRoot : Bool) :
    run_command res true isRoot = none ↔ (res = .success ∧ isRoot = true) := by
  cases res <;> cases isRoot <;> simp [run_command]

/-! ## Disk Image Packager

`create_rootfs_ext4_image` (sub.py lines 436-516) and
`create_bootfs_vfat_image` (sub.py lines 519-655), modelled as interpreters
over the observable outcomes of their external steps.  The tracked state is
whether the scoped temporary mount-point directory currently exists, whether
the image is currently mounted there, and the ordered list of operations
attempted. -/

/-- The operations the two packagers attempt, in program order. -/
inductive Ev where
  | gitEv
  | mkdtempEv
  | fallocateEv
  | ddEv
  | mkfsEv
  | mountEv
  | rsyncEv
  | cmdlineEv
  | configEv
  | umountEv
  | rmtreeEv
deriving DecidableEq

/-- Host-filesystem state scoped to one packager call. -/
structure St where
  dirExists : Bool
  mounted : Bool
  events : List Ev
deriving DecidableEq

/-- Append an attempted operation to the trace. -/
def pushEv (st : St) (e : Ev) : St :=
  { st with events := st.events ++ [e] }

/-- Outcomes of every external step either packager can attempt.  Fields used
only by the vfat variant: `gitRes`, `bootDirExists`, `cmdlineWriteOk`,
`configWriteOk`; `rootfsIsDir` is used only by the ext4 variant. -/
structure Outcomes where
  isRoot : Bool
  rootfsIsDir : Bool
  gitRes : CmdResult
  bootDirExists : Bool
  mkdtempOk : Bool
  fallocateRes : CmdResult
  ddRes : CmdResult
  mkfsRes : CmdResult
  mountRes : CmdResult
  rsyncRes : CmdResult
  cmdlineWriteOk : Bool
  configWriteOk : Bool
  umountRes : CmdResult
  rmtreeOk : Bool
deriving DecidableEq

/-- One `run_command(..., check_root=True)` pipeline step (format, mount,
copy): record the attempt, return the escaping exception if any. -/
def cmdStep (res : CmdResult) (o : Outcomes) (ev : Ev) (st : St) : St × Option PyExc :=
  (pushEv st ev, run_command res true o.isRoot)

/-- The image-allocation step (sub.py lines 466-472): `fallocate` under
`run_command`, with `except subprocess.CalledProcessError` falling back to
`dd`.  Because `run_command` converts a failed command into `sys.exit(1)`
(i.e. `SystemExit`), the `except` clause can only match if `run_command`
itself lets a `CalledProcessError` escape. -/
def allocStep (o : Outcomes) (st : St) : St × Option PyExc :=
  let st1 := pushEv st .fallocateEv
  match run_command o.fallocateRes true o.isRoot with
  | none => (st1, none)
  | some e =>
    match e with
    | .calledProcessError =>
      let st2 := pushEv st1 .ddEv
      (st2, run_command o.ddRes true o.isRoot)
    | _ => (st1, some e)

/-- The `try:` body of `create_rootfs_ext4_image` (steps 2-6, sub.py lines
460-490): make the temporary mount directory, allocate the image, format it
as ext4, mount it, rsync the rootfs into it. -/
def ext4Body (o : Outcomes) : St × Option PyExc :=
  let st0 := pushEv ⟨false, false, []⟩ .mkdtempEv
  if o.mkdtempOk = false then (st0, some .ioError)
  else
    let st0 := { st0 with dirExists := true }
    match allocStep o st0 with
    | (st, some e) => (st, some e)
    | (st1, none) =>
      match cmdStep o.mkfsRes o .mkfsEv st1 with
      | (st, some e) => (st, some e)
      | (st2, none) =>
        match cmdStep o.mountRes o .mountEv st2 with
        | (st, some e) => (st, some e)
        | (st3, none) =>
          let st3 := { st3 with mounted := true }
          match cmdStep o.rsyncRes o .rsyncEv st3 with
          | (st, some e) => (st, some e)
          | (st4, none) => (st4, none)

/-- The `try:` body of `create_bootfs_vfat_image` (steps 2-8, sub.py lines
541-628): clone/pull firmware, check the boot directory, make the temporary
mount directory, allocate, format FAT32, mount, rsync, then write
`cmdline.txt` and `config.txt` into the mounted image.  The git step runs
with `check_root=False` (default); a missing boot directory calls
`sys.exit(1)` directly inside the `try`. -/
def vfatBody (o : Outcomes) : St × Option PyExc :=
  let st0 := pushEv ⟨false, false, []⟩ .gitEv
  match run_command o.gitRes false o.isRoot with
  | some e => (st0, some e)
  | none =>
    if o.bootDirExists = false then (st0, some (.systemExit 1))
    else
      let st1 := pushEv st0 .mkdtempEv
      if o.mkdtempOk = false then (st1, some .ioError)
      else
        let st1 := { st1 with dirExists := true }
        match allocStep o st1 with
        | (st, some e) => (st, some e)
        | (st2, none) =>
          match cmdStep o.mkfsRes o .mkfsEv st2 with
          | (st, some e) => (st, some e)
          | (st3, none) =>
            match cmdStep o.mountRes o .mountEv st3 with
            | (st, some e) => (st, some e)
            | (st4, none) =>
              let st4 := { st4 with mounted := true }
              match cmdStep o.rsyncRes o .rsyncEv st4 with
              | (st, some e) => (st, some e)
              | (st5, none) =>
                let st6 := pushEv st5 .cmdlineEv
                if o.cmdlineWriteOk = false then (st6, some .ioError)
                else
                  let st7 := pushEv st6 .configEv
                  if o.configWriteOk = false then (st7, some .ioError)
                  else (st7, none)

/-- The `except Exception as e:` handler wrapped around either body (sub.py
lines 492-494 and 631-633): a catchable exception is printed and replaced by
`sys.exit(1)`; `SystemExit` is not caught and propagates unchanged. -/
def tryExceptSysExit (r : St × Option PyExc) : St × Option PyExc :=
  match r with
  | (st, none) => (st, none)
  | (st, some e) => if catchable e then (st, some (.systemExit 1)) else (st, some e)

/-- Step 7 of the shared `finally:` block (sub.py lines 496-504 and 635-643):
if the image is still mounted (`temp_mount_point.is_mount()`), `umount` is
attempted under `run_command`; the surrounding `except Exception` downgrades a
catchable failure to a warning, but the `SystemExit` that `run_command` raises
on command failure is not catchable and escapes. -/
def umountStep (o : Outcomes) (st : St) : St × Option PyExc :=
  if st.mounted then
    let st1 := pushEv st .umountEv
    match run_command o.umountRes true o.isRoot with
    | none => ({ st1 with mounted := false }, none)
    | some e => if catchable e then (st1, none) else (st1, some e)
  else (st, none)

/-- Step 8 of the shared `finally:` block (sub.py lines 506-514 and 645-653):
if the temporary mount-point directory still exists, `shutil.rmtree` is
attempted, with any `Exception` downgraded to a warning (so this step never
raises). -/
def rmtreeStep (o : Outcomes) (st : St) : St :=
  if st.dirExists then
    let st2 := pushEv st .rmtreeEv
    if o.rmtreeOk then { st2 with dirExists := false } else st2
  else st

/-- The shared `finally:` block: the unmount attempt runs first; an exception
escaping it (a `SystemExit` from a failed `umount` command) skips the
directory removal. -/
def imageFinally (o : Outcomes) (st : St) : St × Option PyExc :=
  match umountStep o st with
  | (stA, some e) => (stA, some e)
  | (stA, none) => (rmtreeStep o stA, none)

/-- How the call ends: normal return, or process termination via `SystemExit`
(every exception that can escape these functions is a `SystemExit`). -/
inductive Term where
  | normal
  | sysExit
deriving DecidableEq

/-- Combine a `try:` body with the `except Exception` handler and the
`finally:` block.  Python runs the handler first, then the `finally:`; an
exception escaping the `finally:` replaces the pending one. -/
def finishImage (body : St × Option PyExc) (o : Outcomes) : St × Term :=
  let r := tryExceptSysExit body
  let f := imageFinally o r.1
  match f.2 with
  | some _ => (f.1, .sysExit)
  | none =>
    match r.2 with
    | some _ => (f.1, .sysExit)
    | none => (f.1, .normal)

/-- `create_rootfs_ext4_image(rootfs_base_dir, image_output_path,
image_size_mb)`: the euid check (line 450) and the rootfs-directory check
(line 454) exit before the temporary mount point is created; then the body
runs under the handler and the `finally:` cleanup. -/
def create_rootfs_ext4_image (o : Outcomes) : St × Term :=
  if o.isRoot = false then (⟨false, false, []⟩, .sysExit)
  else if o.rootfsIsDir = false then (⟨false, false, []⟩, .sysExit)
  else finishImage (ext4Body o) o

/-- `create_bootfs_vfat_image(output_image_path, firmware_clone_dir,
image_size_mb)`: the euid check (line 533) exits first; then the body runs
under the handler and the `finally:` cleanup. -/
def create_bootfs_vfat_image (o : Outcomes) : St × Term :=
  if o.isRoot = false then (⟨false, false, []⟩, .sysExit)
  else finishImage (vfatBody o) o

/-- Step outcomes where every external operation succeeds. -/
def allOk : Outcomes :=
  ⟨true, true, .success, true, true, .success, .success, .success, .success, .success,
    true, true, .success, true⟩

example :
    create_rootfs_ext4_image allOk =
      (⟨false, false, [.mkdtempEv, .fallocateEv, .mkfsEv, .mountEv, .rsyncEv, .umountEv,
        .rmtreeEv]⟩, .normal) := by decide

example :
    create_bootfs_vfat_image allOk =
      (⟨false, false, [.gitEv, .mkdtempEv, .fallocateEv, .mkfsEv, .mountEv, .rsyncEv,
        .cmdlineEv, .configEv, .umountEv, .rmtreeEv]⟩, .normal) := by decide

example :
    create_rootfs_ext4_image { allOk with mkfsRes := .nonzeroExit } =
      (⟨false, false, [.mkdtempEv, .fallocateEv, .mkfsEv, .rmtreeEv]⟩, .sysExit) := by decide

example :
    create_rootfs_ext4_image { allOk with rsyncRes := .nonzeroExit } =
      (⟨false, false, [.mkdtempEv, .fallocateEv, .mkfsEv, .mountEv, .rsyncEv, .umountEv,
        .rmtreeEv]⟩, .sysExit) := by decide

example :
    create_rootfs_ext4_image { allOk with rsyncRes := .nonzeroExit, umountRes := .nonzeroExit } =
      (⟨true, true, [.mkdtempEv, .fallocateEv, .mkfsEv, .mountEv, .rsyncEv, .umountEv]⟩,
        .sysExit) := by decide

/-! ### Lemmas about the packagers -/

/-- `run_command` never lets `CalledProcessError` escape, so the allocation
step is equivalent to the bare `fallocate` invocation: the `dd` branch is
unreachable. -/
theorem allocStep_eq (o : Outcomes) (st : St) :
    allocStep o st = (pushEv st .fallocateEv, run_command o.fallocateRes true o.isRoot) := by
  rcases run_command_none_or o.fallocateRes true o.isRoot with h | h <;> simp [allocStep, h]

theorem ext4Body_props (o : Outcomes) :
    Ev.umountEv ∉ (ext4Body o).1.events ∧ Ev.rmtreeEv ∉ (ext4Body o).1.events ∧
    Ev.ddEv ∉ (ext4Body o).1.events ∧
    ((ext4Body o).1.mounted = true → (ext4Body o).1.dirExists = true) ∧
    (o.mkdtempOk = true → (ext4Body o).1.dirExists = true) := by
  by_cases h0 : o.mkdtempOk
  all_goals rcases run_command_none_or o.fallocateRes true o.isRoot with h1 | h1
  all_goals rcases run_command_none_or o.mkfsRes true o.isRoot with h2 | h2
  all_goals rcases run_command_none_or o.mountRes true o.isRoot with h3 | h3
  all_goals rcases run_command_none_or o.rsyncRes true o.isRoot with h4 | h4
  all_goals simp [ext4Body, allocStep_eq, cmdStep, pushEv, h0, h1, h2, h3, h4]

theorem vfatBody_props (o : Outcomes) :
    Ev.umountEv ∉ (vfatBody o).1.events ∧ Ev.rmtreeEv ∉ (vfatBody o).1.events ∧
    Ev.ddEv ∉ (vfatBody o).1.events ∧
    ((vfatBody o).1.mounted = true → (vfatBody o).1.dirExists = true) ∧
    (o.gitRes = .success → o.bootDirExists = true → o.mkdtempOk = true →
      (vfatBody o).1.dirExists = true) := by
  by_cases hb : o.bootDirExists
  all_goals by_cases h0 : o.mkdtempOk
  all_goals by_cases hc1 : o.cmdlineWriteOk
  all_goals by_cases hc2 : o.configWriteOk
  all_goals rcases run_command_none_or o.gitRes false o.isRoot with hg | hg
  all_goals rcases run_command_none_or o.fallocateRes true o.isRoot with h1 | h1
  all_goals rcases run_command_none_or o.mkfsRes true o.isRoot with h2 | h2
  all_goals rcases run_command_none_or o.mountRes true o.isRoot with h3 | h3
  all_goals rcases run_command_none_or o.rsyncRes true o.isRoot with h4 | h4
  all_goals
    simp [vfatBody, allocStep_eq, cmdStep, pushEv, hb, h0, hc1, hc2, hg, h1, h2, h3, h4,
      run_command_eq_none_iff]
  all_goals intro hgs
  all_goals rw [hgs] at hg
  all_goals simp [run_command] at hg

/-- The `except Exception` wrapper does not change the filesystem state, so
the state after the whole `try/except/finally` is the state after the
`finally:` applied to the body's state. -/
theorem finishImage_st (b : St × Option PyExc) (o : Outcomes) :
    (finishImage b o).1 = (imageFinally o b.1).1 := by
  rcases b with ⟨st, e⟩
  have h1 : (tryExceptSysExit (st, e)).1 = st := by
    cases e with
    | none => rfl
    | some e' => simp only [tryExceptSysExit]; split <;> rfl
  simp only [finishImage, h1]
  rcases h2 : imageFinally o st with ⟨stA, eA⟩
  cases eA with
  | some e' => rfl
  | none =>
    cases e with
    | none => rfl
    | some e' => by_cases hc : catchable e' <;> simp [tryExceptSysExit, hc]

theorem umountStep_not_mounted (o : Outcomes) (st : St) (hm : st.mounted = false) :
    umountStep o st = (st, none) := by
  simp [umountStep, hm]

theorem umountStep_ok (o : Outcomes) (st : St) (hm : st.mounted = true)
    (hr : o.isRoot = true) (hu : o.umountRes = .success) :
    umountStep o st = (⟨st.dirExists, false, st.events ++ [.umountEv]⟩, none) := by
  simp [umountStep, hm, hu, run_command, hr, pushEv]

theorem umountStep_fail (o : Outcomes) (st : St) (hm : st.mounted = true)
    (hu : run_command o.umountRes true o.isRoot = some (.systemExit 1)) :
    umountStep o st = (⟨st.dirExists, true, st.events ++ [.umountEv]⟩, some (.systemExit 1)) := by
  simp [umountStep, hm, hu, catchable, pushEv]

theorem rmtreeStep_not_exists (o : Outcomes) (st : St) (hd : st.dirExists = false) :
    rmtreeStep o st = st := by
  simp [rmtreeStep, hd]

theorem rmtreeStep_removes (o : Outcomes) (st : St) (hd : st.dirExists = true)
    (hrm : o.rmtreeOk = true) :
    rmtreeStep o st = ⟨false, st.mounted, st.events ++ [.rmtreeEv]⟩ := by
  simp [rmtreeStep, hd, hrm, pushEv]

theorem rmtreeStep_warns (o : Outcomes) (st : St) (hd : st.dirExists = true)
    (hrm : o.rmtreeOk = false) :
    rmtreeStep o st = ⟨true, st.mounted, st.events ++ [.rmtreeEv]⟩ := by
  simp [rmtreeStep, hd, hrm, pushEv]

theorem imageFinally_not_mounted (o : Outcomes) (st : St) (hm : st.mounted = false) :
    imageFinally o st = (rmtreeStep o st, none) := by
  rw [imageFinally, umountStep_not_mounted o st hm]

theorem imageFinally_umount_ok (o : Outcomes) (st : St) (hm : st.mounted = true)
    (hr : o.isRoot = true) (hu : o.umountRes = .success) :
    imageFinally o st =
      (rmtreeStep o ⟨st.dirExists, false, st.events ++ [.umountEv]⟩, none) := by
  rw [imageFinally, umountStep_ok o st hm hr hu]

theorem imageFinally_umount_fail (o : Outcomes) (st : St) (hm : st.mounted = true)
    (hu : run_command o.umountRes true o.isRoot = some (.systemExit 1)) :
    imageFinally o st =
      (⟨st.dirExists, true, st.events ++ [.umountEv]⟩, some (.systemExit 1)) := by
  rw [imageFinally, umountStep_fail o st hm hu]

/-- Every operation the `finally:` block adds to the trace is `umount` or
`rmtree`. -/
theorem imageFinally_events (o : Outcomes) (st : St) (e : Ev)
    (h : e ∈ (imageFinally o st).1.events) :
    e ∈ st.events ∨ e = .umountEv ∨ e = .rmtreeEv := by
  by_cases hm : st.mounted
  · rcases run_command_none_or o.umountRes true o.isRoot with hu | hu
    · have hsucc : o.umountRes = .success ∧ o.isRoot = true :=
        (run_command_eq_none_iff o.umountRes o.isRoot).mp hu
      rw [imageFinally_umount_ok o st hm hsucc.2 hsucc.1] at h
      by_cases hd : st.dirExists
      · by_cases hrm : o.rmtreeOk
        · rw [rmtreeStep_removes o _ (by simpa using hd) (by simpa using hrm)] at h
          rcases (by simpa using h : e ∈ st.events ∨ e = Ev.umountEv ∨ e = Ev.rmtreeEv)
            with h' | h' <;> simp [h']
        · rw [rmtreeStep_warns o _ (by simpa using hd) (by simpa using hrm)] at h
          rcases (by simpa using h : e ∈ st.events ∨ e = Ev.umountEv ∨ e = Ev.rmtreeEv)
            with h' | h' <;> simp [h']
      · rw [rmtreeStep_not_exists o _ (by simpa using hd)] at h
        rcases (by simpa using h : e ∈ st.events ∨ e = Ev.umountEv) with h' | h' <;>
          simp [h']
    · rw [imageFinally_umount_fail o st hm hu] at h
      rcases (by simpa using h : e ∈ st.events ∨ e = Ev.umountEv) with h' | h' <;>
        simp [h']
  · rw [imageFinally_not_mounted o st (by simpa using hm)] at h
    by_cases hd : st.dirExists
    · by_cases hrm : o.rmtreeOk
      · rw [rmtreeStep_removes o st hd (by simpa using hrm)] at h
        rcases (by simpa using h : e ∈ st.events ∨ e = Ev.rmtreeEv) with h' | h' <;> simp [h']
      · rw [rmtreeStep_warns o st hd (by simpa using hrm)] at h
        rcases (by simpa using h : e ∈ st.events ∨ e = Ev.rmtreeEv) with h' | h' <;> simp [h']
    · rw [rmtreeStep_not_exists o _ (by simpa using hd)] at h
      simp [h]

theorem sublist_append_pair {a b : Ev} (l : List Ev) :
    List.Sublist [a, b] (l ++ [a] ++ [b]) := by
  rw [List.append_assoc]
  exact List.sublist_append_right l [a, b]

/-- Cleanup guarantees of the `finally:` block, given a state produced by a
`try:` body (which never attempts `umount`/`rmtree` itself and is only mounted
when the directory exists). -/
theorem imageFinally_cleanup (o : Outcomes) (st : St) (hroot : o.isRoot = true)
    (hu : Ev.umountEv ∉ st.events) (hrm : Ev.rmtreeEv ∉ st.events)
    (hmd : st.mounted = true → st.dirExists = true) :
    (Ev.umountEv ∈ (imageFinally o st).1.events →
      Ev.rmtreeEv ∈ (imageFinally o st).1.events →
      List.Sublist [Ev.umountEv, Ev.rmtreeEv] (imageFinally o st).1.events) ∧
    (st.dirExists = true → o.umountRes = .success →
      Ev.rmtreeEv ∈ (imageFinally o st).1.events) ∧
    (o.umountRes = .success → o.rmtreeOk = true →
      (imageFinally o st).1.dirExists = false ∧ (imageFinally o st).1.mounted = false) := by
  by_cases hm : st.mounted = true
  · by_cases hus : o.umountRes = .success
    · have hd : st.dirExists = true := hmd hm
      rw [imageFinally_umount_ok o st hm hroot hus]
      by_cases hok : o.rmtreeOk = true
      · rw [rmtreeStep_removes o ⟨st.dirExists, false, st.events ++ [Ev.umountEv]⟩ hd hok]
        exact ⟨fun _ _ => sublist_append_pair st.events, fun _ _ => by simp,
          fun _ _ => ⟨rfl, rfl⟩⟩
      · rw [rmtreeStep_warns o ⟨st.dirExists, false, st.events ++ [Ev.umountEv]⟩ hd
          (by simpa using hok)]
        exact ⟨fun _ _ => sublist_append_pair st.events, fun _ _ => by simp,
          fun _ h => absurd h hok⟩
    · have hfail : run_command o.umountRes true o.isRoot = some (.systemExit 1) := by
        rcases run_command_none_or o.umountRes true o.isRoot with h | h
        · exact absurd ((run_command_eq_none_iff o.umountRes o.isRoot).mp h).1 hus
        · exact h
      rw [imageFinally_umount_fail o st hm hfail]
      refine ⟨fun _ hmem => ?_, fun _ h => absurd h hus, fun h _ => absurd h hus⟩
      rcases (by simpa using hmem : Ev.rmtreeEv ∈ st.events ∨ False) with h' | h'
      · exact absurd h' hrm
      · exact absurd h' not_false
  · rw [imageFinally_not_mounted o st (by simpa using hm)]
    by_cases hd : st.dirExists = true
    · by_cases hok : o.rmtreeOk = true
      · rw [rmtreeStep_removes o st hd hok]
        refine ⟨fun hmem _ => ?_, fun _ _ => by simp, fun _ _ => ⟨rfl, by simpa using hm⟩⟩
        rcases (by simpa using hmem : Ev.umountEv ∈ st.events ∨ False) with h' | h'
        · exact absurd h' hu
        · exact absurd h' not_false
      · rw [rmtreeStep_warns o st hd (by simpa using hok)]
        refine ⟨fun hmem _ => ?_, fun _ _ => by simp, fun _ h => absurd h hok⟩
        rcases (by simpa using hmem : Ev.umountEv ∈ st.events ∨ False) with h' | h'
        · exact absurd h' hu
        · exact absurd h' not_false
    · rw [rmtreeStep_not_exists o st (by simpa using hd)]
      exact ⟨fun hmem _ => absurd hmem hu, fun h _ => absurd h hd,
        fun _ _ => ⟨by simpa using hd, by simpa using hm⟩⟩

theorem create_ext4_cleanup (o : Outcomes) :
    (Ev.umountEv ∈ (create_rootfs_ext4_image o).1.events →
      Ev.rmtreeEv ∈ (create_rootfs_ext4_image o).1.events →
      List.Sublist [Ev.umountEv, Ev.rmtreeEv] (create_rootfs_ext4_image o).1.events) ∧
    (o.isRoot = true → o.rootfsIsDir = true → o.mkdtempOk = true → o.umountRes = .success →
      Ev.rmtreeEv ∈ (create_rootfs_ext4_image o).1.events) ∧
    (o.umountRes = .success → o.rmtreeOk = true →
      (create_rootfs_ext4_image o).1.dirExists = false ∧
      (create_rootfs_ext4_image o).1.mounted = false) := by
  by_cases hroot : o.isRoot = true
  · by_cases hdir : o.rootfsIsDir = true
    · have hst : (create_rootfs_ext4_image o).1 = (imageFinally o (ext4Body o).1).1 := by
        rw [create_rootfs_ext4_image, if_neg (by simp [hroot]), if_neg (by simp [hdir])]
        exact finishImage_st (ext4Body o) o
      obtain ⟨h1, h2, _, h4, h5⟩ := ext4Body_props o
      obtain ⟨k1, k2, k3⟩ := imageFinally_cleanup o (ext4Body o).1 hroot h1 h2 h4
      rw [hst]
      exact ⟨k1, fun _ _ hmk hum => k2 (h5 hmk) hum, k3⟩
    · rw [create_rootfs_ext4_image, if_neg (by simp [hroot]),
        if_pos (by simpa using hdir)]
      exact ⟨fun hmem => by simp at hmem, fun _ h => absurd h hdir, fun _ _ => ⟨rfl, rfl⟩⟩
  · rw [create_rootfs_ext4_image, if_pos (by simpa using hroot)]
    exact ⟨fun hmem => by simp at hmem, fun h => absurd h hroot, fun _ _ => ⟨rfl, rfl⟩⟩

theorem create_vfat_cleanup (o : Outcomes) :
    (Ev.umountEv ∈ (create_bootfs_vfat_image o).1.events →
      Ev.rmtreeEv ∈ (create_bootfs_vfat_image o).1.events →
      List.Sublist [Ev.umountEv, Ev.rmtreeEv] (create_bootfs_vfat_image o).1.events) ∧
    (o.isRoot = true → o.gitRes = .success → o.bootDirExists = true → o.mkdtempOk = true →
      o.umountRes = .success → Ev.rmtreeEv ∈ (create_bootfs_vfat_image o).1.events) ∧
    (o.umountRes = .success → o.rmtreeOk = true →
      (create_bootfs_vfat_image o).1.dirExists = false ∧
      (create_bootfs_vfat_image o).1.mounted = false) := by
  by_cases hroot : o.isRoot = true
  · have hst : (create_bootfs_vfat_image o).1 = (imageFinally o (vfatBody o).1).1 := by
      rw [create_bootfs_vfat_image, if_neg (by simp [hroot])]
      exact finishImage_st (vfatBody o) o
    obtain ⟨h1, h2, _, h4, h5⟩ := vfatBody_props o
    obtain ⟨k1, k2, k3⟩ := imageFinally_cleanup o (vfatBody o).1 hroot h1 h2 h4
    rw [hst]
    exact ⟨k1, fun _ hg hb hmk hum => k2 (h5 hg hb hmk) hum, k3⟩
  · rw [create_bootfs_vfat_image, if_pos (by simpa using hroot)]
    exact ⟨fun hmem => by simp at hmem, fun h => absurd h hroot, fun _ _ => ⟨rfl, rfl⟩⟩

/-- C3.  For both Disk Image Packagers, on every exit path (normal return,
catchable exception in a pipeline step, or `SystemExit` from a failed external
tool): once the scoped temporary mount point exists, an `umount` attempt always
precedes the `rmtree` attempt in the operation trace; once the mount point has
been created, directory removal is attempted whatever the outcome of the later
allocation, format, mount and copy steps (assuming the `umount` command itself
succeeds where one is needed); and, assuming the `umount` and removal commands
succeed, after the call returns the mount-point directory no longer exists and
no mount entry for the image remains. -/
theorem c3_scoped_mount_cleanup :
    ∀ o : Outcomes,
      ((Ev.umountEv ∈ (create_rootfs_ext4_image o).1.events →
          Ev.rmtreeEv ∈ (create_rootfs_ext4_image o).1.events →
          List.Sublist [Ev.umountEv, Ev.rmtreeEv] (create_rootfs_ext4_image o).1.events) ∧
        (o.isRoot = true → o.rootfsIsDir = true → o.mkdtempOk = true →
          o.umountRes = .success → Ev.rmtreeEv ∈ (create_rootfs_ext4_image o).1.events) ∧
        (o.umountRes = .success → o.rmtreeOk = true →
          (create_rootfs_ext4_image o).1.dirExists = false ∧
          (create_rootfs_ext4_image o).1.mounted = false)) ∧
      ((Ev.umountEv ∈ (create_bootfs_vfat_image o).1.events →
          Ev.rmtreeEv ∈ (create_bootfs_vfat_image o).1.events →
          List.Sublist [Ev.umountEv, Ev.rmtreeEv] (create_bootfs_vfat_image o).1.events) ∧
        (o.isRoot = true → o.gitRes = .success → o.bootDirExists = true → o.mkdtempOk = true →
          o.umountRes = .success → Ev.rmtreeEv ∈ (create_bootfs_vfat_image o).1.events) ∧
        (o.umountRes = .success → o.rmtreeOk = true →
          (create_bootfs_vfat_image o).1.dirExists = false ∧
          (create_bootfs_vfat_image o).1.mounted = false)) :=
  fun o => ⟨create_ext4_cleanup o, create_vfat_cleanup o⟩

/-- C3 witness: the cleanup guarantees at a concrete outcome where the copy
step fails (`rsync` exits non-zero) and every cleanup command succeeds. -/
theorem c3_scoped_mount_cleanup_witness :
    Ev.rmtreeEv ∈ (create_rootfs_ext4_image { allOk with rsyncRes := .nonzeroExit }).1.events ∧
    (create_rootfs_ext4_image { allOk with rsyncRes := .nonzeroExit }).1.dirExists = false ∧
    (create_rootfs_ext4_image { allOk with rsyncRes := .nonzeroExit }).1.mounted = false ∧
    Ev.rmtreeEv ∈ (create_bootfs_vfat_image allOk).1.events :=
  ⟨(c3_scoped_mount_cleanup { allOk with rsyncRes := .nonzeroExit }).1.2.1 rfl rfl rfl rfl,
    ((c3_scoped_mount_cleanup { allOk with rsyncRes := .nonzeroExit }).1.2.2 rfl rfl).1,
    ((c3_scoped_mount_cleanup { allOk with rsyncRes := .nonzeroExit }).1.2.2 rfl rfl).2,
    (c3_scoped_mount_cleanup allOk).2.2.1 rfl rfl rfl rfl rfl⟩

theorem ext4_no_dd (o : Outcomes) : Ev.ddEv ∉ (create_rootfs_ext4_image o).1.events := by
  by_cases hroot : o.isRoot = true
  · by_cases hdir : o.rootfsIsDir = true
    · have hst : (create_rootfs_ext4_image o).1 = (imageFinally o (ext4Body o).1).1 := by
        rw [create_rootfs_ext4_image, if_neg (by simp [hroot]), if_neg (by simp [hdir])]
        exact finishImage_st (ext4Body o) o
      rw [hst]
      intro hmem
      rcases imageFinally_events o (ext4Body o).1 Ev.ddEv hmem with h | h | h
      · exact absurd h (ext4Body_props o).2.2.1
      · exact absurd h (by simp)
      · exact absurd h (by simp)
    · rw [create_rootfs_ext4_image, if_neg (by simp [hroot]), if_pos (by simpa using hdir)]
      simp
  · rw [create_rootfs_ext4_image, if_pos (by simpa using hroot)]
    simp

theorem vfat_no_dd (o : Outcomes) : Ev.ddEv ∉ (create_bootfs_vfat_image o).1.events := by
  by_cases hroot : o.isRoot = true
  · have hst : (create_bootfs_vfat_image o).1 = (imageFinally o (vfatBody o).1).1 := by
      rw [create_bootfs_vfat_image, if_neg (by simp [hroot])]
      exact finishImage_st (vfatBody o) o
    rw [hst]
    intro hmem
    rcases imageFinally_events o (vfatBody o).1 Ev.ddEv hmem with h | h | h
    · exact absurd h (vfatBody_props o).2.2.1
    · exact absurd h (by simp)
    · exact absurd h (by simp)
  · rw [create_bootfs_vfat_image, if_pos (by simpa using hroot)]
    simp

/-- C9.  `run_command` never returns to its caller after a failed command:
both a non-zero exit status (`CalledProcessError`) and a missing executable
(`FileNotFoundError`) are caught inside `run_command` and turned into
`sys.exit(1)` (`SystemExit`, exit status 1).  In particular `run_command`
never lets `subprocess.CalledProcessError` escape, so no caller's
`except subprocess.CalledProcessError` handler can run: in both packagers the
`dd` fallback guarded by such a handler is never attempted, for any step
outcomes. -/
theorem c9_run_command_failure_fatal :
    (∀ (res : CmdResult) (checkRoot isRoot : Bool), res ≠ .success →
      run_command res checkRoot isRoot = some (.systemExit 1)) ∧
    (∀ (res : CmdResult) (checkRoot isRoot : Bool),
      run_command res checkRoot isRoot ≠ some .calledProcessError) ∧
    (∀ o : Outcomes, Ev.ddEv ∉ (create_rootfs_ext4_image o).1.events) ∧
    (∀ o : Outcomes, Ev.ddEv ∉ (create_bootfs_vfat_image o).1.events) := by
  refine ⟨?_, ?_, ext4_no_dd, vfat_no_dd⟩
  · intro res cr ir h
    cases res with
    | success => exact absurd rfl h
    | nonzeroExit => by_cases hc : cr && !ir <;> simp [run_command, hc]
    | notFound => by_cases hc : cr && !ir <;> simp [run_command, hc]
  · intro res cr ir
    rcases run_command_none_or res cr ir with h | h <;> simp [h]

/-- C9 witness: `run_command` on a failing and on a missing command, and the
unreachability of the `dd` fallback at the all-success outcome. -/
theorem c9_run_command_failure_fatal_witness :
    run_command .nonzeroExit true true = some (.systemExit 1) ∧
    run_command .notFound false false = some (.systemExit 1) ∧
    Ev.ddEv ∉ (create_rootfs_ext4_image allOk).1.events :=
  ⟨c9_run_command_failure_fatal.1 .nonzeroExit true true (by decide),
    c9_run_command_failure_fatal.1 .notFound false false (by decide),
    c9_run_command_failure_fatal.2.2.1 allOk⟩

/-- C4.  When `fallocate` fails (non-zero exit status) and every other
external tool would succeed, `create_rootfs_ext4_image` does NOT fall back to
`dd` and does NOT continue past the allocation step: `run_command` converts
the failure into `SystemExit`, which the `except subprocess.CalledProcessError`
around the `fallocate` call does not match, so the call terminates the process
(after running the `finally:` cleanup) without ever attempting `dd`, `mkfs`,
`mount` or the copy. -/
theorem c4_fallocate_fallback_dead :
    (create_rootfs_ext4_image { allOk with fallocateRes := .nonzeroExit }).2 = .sysExit ∧
    Ev.ddEv ∉ (create_rootfs_ext4_image { allOk with fallocateRes := .nonzeroExit }).1.events ∧
    (create_rootfs_ext4_image { allOk with fallocateRes := .nonzeroExit }).1.events =
      [.mkdtempEv, .fallocateEv, .rmtreeEv] := by
  refine ⟨by decide, ?_, by decide⟩
  intro h
  rw [show (create_rootfs_ext4_image { allOk with fallocateRes := .nonzeroExit }).1.events =
    [.mkdtempEv, .fallocateEv, .rmtreeEv] by decide] at h
  simp at h

/-! ## Directory Scaffold Builder

`create_dirs` (`src/rootfs/sub.py` lines 113-129).  A directory path relative
to the rootfs output root is modelled as its list of components (`"usr/bin"`
is `["usr", "bin"]`); the scaffold state is an association list from existing
directory paths to their modes. -/

/-- The ordered `rootfs_dirs` list of sub.py lines 52-59.  Note: it contains
`var/tmp` but NOT `tmp` (the variant list in test.py line 72 does contain
`"tmp"`). -/
def rootfs_dirs : List (List String) :=
  [["bin"], ["sbin"], ["etc"], ["proc"], ["sys"], ["dev"], ["lib"], ["lib64"], ["home"],
    ["usr"], ["usr", "bin"], ["usr", "sbin"], ["usr", "lib"], ["usr", "local"],
    ["var"], ["var", "log"], ["var", "run"], ["var", "tmp"], ["var", "lock"],
    ["mnt"], ["opt"], ["srv"],
    ["root"],
    ["home", "pi"]]

/-- Whether a directory exists in the scaffold state. -/
def containsPath (fs : List (List String × Nat)) (p : List String) : Bool :=
  fs.any (fun q => q.1 == p)

/-- `(rootfs_dir / d).mkdir(exist_ok=True)` (sub.py line 123): no
`parents=True`, so a missing parent raises `FileNotFoundError`; an existing
directory is left untouched; a new directory is created (mode 0o755 under the
usual umask). -/
def mkdirExistOk (fs : List (List String × Nat)) (p : List String) :
    Except PyExc (List (List String × Nat)) :=
  if containsPath fs p then .ok fs
  else if p.dropLast = [] || containsPath fs p.dropLast then .ok (fs ++ [(p, 0o755)])
  else .error .ioError

/-- `os.chmod(path, m)`: raises `FileNotFoundError` when the path does not
exist. -/
def chmodPath (fs : List (List String × Nat)) (p : List String) (m : Nat) :
    Except PyExc (List (List String × Nat)) :=
  if containsPath fs p then .ok (fs.map (fun q => if q.1 == p then (q.1, m) else q))
  else .error .ioError

/-- `create_dirs()` (sub.py lines 113-129) relative to the rootfs root: make
every directory of `rootfs_dirs` in order (the creation of `build/` and
`build/rootfs/` themselves uses `mkdir(parents=True, exist_ok=True)` and
always succeeds), then apply the special-permission `os.chmod` calls of lines
125-128, in order: `tmp` 0o1777, `var/log` 0o777, `var/run` 0o777,
`var/tmp` 0o1777. -/
def create_dirs (fs0 : List (List String × Nat)) : Except PyExc (List (List String × Nat)) := do
  let fs ← rootfs_dirs.foldlM (fun fs d => mkdirExistOk fs d) fs0
  let fs ← chmodPath fs ["tmp"] 0o1777
  let fs ← chmodPath fs ["var", "log"] 0o777
  let fs ← chmodPath fs ["var", "run"] 0o777
  chmodPath fs ["var", "tmp"] 0o1777

/-- C5.  Run on a fresh output root, `create_dirs` does NOT succeed: every
directory in `rootfs_dirs` is created (in an order where parents precede
children), but `rootfs_dirs` does not contain `tmp`, so the very first
special-permission call `os.chmod(rootfs_dir / "tmp", 0o1777)` raises
`FileNotFoundError` and `create_dirs` crashes. -/
theorem c5_create_dirs_crashes_on_fresh_root :
    ["tmp"] ∉ rootfs_dirs ∧
    ["var", "tmp"] ∈ rootfs_dirs ∧
    rootfs_dirs.foldlM (fun fs d => mkdirExistOk fs d) ([] : List (List String × Nat)) =
      Except.ok (rootfs_dirs.map (fun d => (d, 0o755))) ∧
    containsPath (rootfs_dirs.map (fun d => (d, 0o755))) ["tmp"] = false ∧
    create_dirs [] = Except.error PyExc.ioError := by
  refine ⟨by decide, by decide, by decide, by decide, by decide⟩

/-! ## Dependency Resolver

`find_dynamic_libraries` (`src/rootfs/sub.py` lines 658-732).  The `readelf`
invocation is represented by its outcome: `none` when the tool is missing or
fails (both early-return `[]` with a warning), `some libs` for the extracted
`NEEDED` sonames (a Python `set`, hence no duplicate names).  A candidate
library path `search_path / lib_name` is represented by the pair
`(search_path, lib_name)`; `fsFiles` lists the paths that exist. -/

/-- `find_dynamic_libraries(binary_path, cross_compiler_root)`.  Returns the
`found_lib_paths` after the final `list(set(...))` duplicate removal, together
with the list of warnings emitted (the unresolved sonames, or a sentinel for
the two early-return warnings). -/
def find_dynamic_libraries (needed : Option (List String)) (rootConfigured : Bool)
    (searchPaths : List String) (fsFiles : List (String × String)) :
    List (String × String) × List String :=
  match needed with
  | none => ([], ["readelf unavailable"])
  | some neededLibs =>
    if rootConfigured = false then ([], ["cross_compiler_root not configured"])
    else
      let resolve := fun (lib : String) =>
        (searchPaths.map (fun sp => (sp, lib))).find? (fun p => fsFiles.contains p)
      let found := neededLibs.filterMap resolve
      let warnings := neededLibs.filter (fun lib => (resolve lib).isNone)
      (found.dedup, warnings)

/-- C6.  With declared needed libraries `libc.so.6` and `libm.so.6` and a
sysroot whose candidate directories contain only `libc.so.6`, the resolver
returns exactly the one resolved path and exactly one warning, for
`libm.so.6`; and for every input the returned path list contains no
duplicates. -/
theorem c6_dependency_resolver :
    find_dynamic_libraries (some ["libc.so.6", "libm.so.6"]) true ["lib", "usr/lib"]
        [("lib", "libc.so.6")] =
      ([("lib", "libc.so.6")], ["libm.so.6"]) ∧
    (∀ (needed : Option (List String)) (rootConfigured : Bool) (searchPaths : List String)
        (fsFiles : List (String × String)),
      (find_dynamic_libraries needed rootConfigured searchPaths fsFiles).1.Nodup) := by
  refine ⟨by decide, ?_⟩
  intro needed rootConfigured searchPaths fsFiles
  match needed with
  | none => simp [find_dynamic_libraries]
  | some neededLibs =>
    by_cases hr : rootConfigured = false
    · simp [find_dynamic_libraries, hr]
    · simp only [find_dynamic_libraries, if_neg hr]
      exact List.nodup_dedup _

/-! ## Permission Classifier

`set_rootfs_permissions` (`src/rootfs/sub.py` lines 353-433; the variant in
`src/rootfs/test.py` lines 400-492 differs only in the file-classification
condition, modelled separately below).  A regular file under the assembled
tree is its directory components below the rootfs base (`build/rootfs`), its
file name, and its byte content.  The directory pass and the later
special-directory overrides only `chmod` directories, so a regular file's
final mode is the one assigned by the file-classification pass (lines
376-389). -/

/-- Substring containment, Python `needle in hay` on bytes. -/
def hasSubstring (needle hay : List Char) : Bool :=
  (List.range (hay.length + 1)).any (fun i => needle.isPrefixOf (hay.drop i))

/-- A regular file in the assembled tree: directory components below the
rootfs base, file name, content bytes. -/
structure RegFile where
  dirs : List String
  name : String
  content : List Char
deriving DecidableEq

/-- `file_path.parent.name`: the last directory component; for a file directly
under the base the parent is `build/rootfs`, whose name is `rootfs`. -/
def parentNameOf (dirs : List String) : String :=
  dirs.getLastD "rootfs"

/-- `file_path.parent.parent.name`: for a file directly under the base this is
`build`; for a file one level down it is `rootfs`. -/
def grandParentNameOf (dirs : List String) : String :=
  if dirs.isEmpty then "build" else dirs.dropLast.getLastD "rootfs"

/-- The executable-file condition of sub.py lines 380-384:
parent named `bin`/`sbin`; or grandparent `usr` with parent `bin`/`sbin`
(subsumed by the first disjunct); or a `.sh` file whose bytes contain
`#!/bin/sh`; or `rcS` under `init.d`; or `init` directly under the base. -/
def fileExecCond (f : RegFile) : Bool :=
  (parentNameOf f.dirs == "bin" || parentNameOf f.dirs == "sbin")
    || (grandParentNameOf f.dirs == "usr"
        && (parentNameOf f.dirs == "bin" || parentNameOf f.dirs == "sbin"))
    || (endsWithChars ['.', 's', 'h'] f.name.data
        && hasSubstring "#!/bin/sh".data f.content)
    || (f.name == "rcS" && parentNameOf f.dirs == "init.d")
    || (f.name == "init" && f.dirs.isEmpty)

/-- The file-classification pass of `set_rootfs_permissions` (sub.py lines
376-389): every regular file gets 0o755 if the condition holds, else 0o644. -/
def set_rootfs_permissions (files : List RegFile) : List (RegFile × Nat) :=
  files.map (fun f => (f, if fileExecCond f then 0o755 else 0o644))

/-- The executable-file condition of the test.py variant (lines 440-442):
parent name in `["bin", "sbin", "usr/bin", "usr/sbin"]` (a `Path.name` never
contains `/`, so the last two entries never match), the same `.sh`-plus-shebang
test, and `rcS` under `init.d`; no `init`-at-root clause. -/
def fileExecCondTest (f : RegFile) : Bool :=
  (parentNameOf f.dirs == "bin" || parentNameOf f.dirs == "sbin"
      || parentNameOf f.dirs == "usr/bin" || parentNameOf f.dirs == "usr/sbin")
    || (endsWithChars ['.', 's', 'h'] f.name.data
        && hasSubstring "#!/bin/sh".data f.content)
    || (f.name == "rcS" && parentNameOf f.dirs == "init.d")

/-- The file-classification pass of the test.py variant (lines 436-447). -/
def set_rootfs_permissions_test (files : List RegFile) : List (RegFile × Nat) :=
  files.map (fun f => (f, if fileExecCondTest f then 0o755 else 0o644))

/-- A file with a shebang interpreter line whose name does not end in `.sh`,
outside any `bin`/`sbin` directory. -/
def shebangNoShFile : RegFile :=
  ⟨["etc"], "startup", "#!/bin/sh\necho hello".data⟩

/-- A regular file directly under a `bin` directory. -/
def binFile : RegFile :=
  ⟨["usr", "bin"], "env", []⟩

/-- C7 counterexample.  `etc/startup` has a shebang interpreter line
(`#!/bin/sh` is contained in its bytes) but its name does not end in `.sh`,
so both variants of the Permission Classifier set its mode to 0o644, not the
executable 0o755 the claim requires for every file with a shebang line. -/
theorem c7_counterexample :
    hasSubstring "#!/bin/sh".data shebangNoShFile.content = true ∧
    set_rootfs_permissions [shebangNoShFile] = [(shebangNoShFile, 0o644)] ∧
    set_rootfs_permissions_test [shebangNoShFile] = [(shebangNoShFile, 0o644)] ∧
    (0o644 : Nat) ≠ 0o755 := by
  refine ⟨by decide, by decide, by decide, by decide⟩

/-- C7 (amended).  After the Permission Classifier runs: every regular file
whose containing directory is named `bin` or `sbin` has mode 0o755; a file
whose name ends in `.sh` and whose bytes contain `#!/bin/sh` has mode 0o755
(a shebang alone is not sufficient); `rcS` under `init.d` and `init` at the
tree root have mode 0o755; and every file matching none of the rule's
disjuncts has mode 0o644. -/
theorem c7_permission_classifier :
    ∀ (files : List RegFile) (f : RegFile) (m : Nat), (f, m) ∈ set_rootfs_permissions files →
      ((parentNameOf f.dirs = "bin" ∨ parentNameOf f.dirs = "sbin") → m = 0o755) ∧
      ((endsWithChars ['.', 's', 'h'] f.name.data = true ∧
        hasSubstring "#!/bin/sh".data f.content = true) → m = 0o755) ∧
      ((f.name = "rcS" ∧ parentNameOf f.dirs = "init.d") → m = 0o755) ∧
      ((f.name = "init" ∧ f.dirs = []) → m = 0o755) ∧
      (fileExecCond f = false → m = 0o644) := by
  intro files f m hmem
  obtain ⟨a, _, heq⟩ := List.mem_map.mp hmem
  have h1 : a = f := congrArg Prod.fst heq
  have h2 : (if fileExecCond a then (0o755 : Nat) else 0o644) = m := congrArg Prod.snd heq
  subst h1
  subst h2
  refine ⟨?_, ?_, ?_, ?_, ?_⟩
  · rintro (h | h) <;> simp [fileExecCond, h]
  · rintro ⟨h1, h2⟩
    simp [fileExecCond, h1, h2]
  · rintro ⟨h1, h2⟩
    simp [fileExecCond, h1, h2]
  · rintro ⟨h1, h2⟩
    simp [fileExecCond, h1, h2]
  · intro h
    simp [h]

/-- C7 witness: the amended theorem applied to a file under `usr/bin`. -/
theorem c7_permission_classifier_witness :
    (binFile, (0o755 : Nat)) ∈ set_rootfs_permissions [binFile] ∧ (0o755 : Nat) = 0o755 :=
  ⟨by decide,
    (c7_permission_classifier [binFile] binFile 0o755 (by decide)).1 (Or.inl (by decide))⟩

/-! ## Device Node Table and initramfs staging

`create_device_nodes` (`src/rootfs/sub.py` lines 320-350) and
`create_initramfs` (lines 751-938).  Device creation is parameterized by which
node paths already exist (`present`) and which `os.mknod` calls would raise
`OSError` (`mknodFails`, e.g. from missing privilege). -/

/-- The static device-node table of sub.py lines 328-337:
(name, major, minor, kind). -/
def rootfsDeviceNodes : List (String × Nat × Nat × Char) :=
  [("console", 5, 1, 'c'), ("null", 1, 3, 'c'), ("zero", 1, 5, 'c'), ("random", 1, 8, 'c'),
    ("urandom", 1, 9, 'c'), ("tty", 5, 0, 'c'), ("tty0", 4, 0, 'c'), ("tty1", 4, 1, 'c')]

/-- One iteration of the loop of sub.py lines 339-349:
`if not dev_path.exists(): os.mknod(...)` inside `try`, with `except OSError`
printing a warning and `except Exception` printing an error; neither handler
re-raises.  The result is the warning recorded for this node, if any. -/
def deviceNodeStep (present mknodFails : List String) (name : String) : Option String :=
  if name ∈ present then none
  else if name ∈ mknodFails then some name
  else none

/-- `create_device_nodes()` (sub.py lines 320-350): iterate the fixed table;
every per-node failure is caught and downgraded to a printed warning, so the
function always returns normally. -/
def create_device_nodes (present mknodFails : List String) : List String × Term :=
  (rootfsDeviceNodes.filterMap (fun q => deviceNodeStep present mknodFails q.1), .normal)

/-- The smaller device table of `create_initramfs` (sub.py lines 878-883). -/
def initramfsDeviceNodes : List (String × Nat × Nat × Char) :=
  [("console", 5, 1, 'c'), ("null", 1, 3, 'c'), ("zero", 1, 5, 'c'), ("tty", 5, 0, 'c')]

/-- The device-node loop of `create_initramfs` (sub.py lines 884-888).
Unlike `create_device_nodes`, it has NO per-node `try/except`: the first
failing `os.mknod` raises `OSError`, which propagates out of the loop. -/
def initramfsDevLoop (present mknodFails : List String) :
    List (String × Nat × Nat × Char) → Option PyExc
  | [] => none
  | q :: rest =>
    if q.1 ∈ present then initramfsDevLoop present mknodFails rest
    else if q.1 ∈ mknodFails then some .ioError
    else initramfsDevLoop present mknodFails rest

/-- Outcomes of the external steps of `create_initramfs`, in program order. -/
structure InitOutcomes where
  isRoot : Bool
  mkdtempOk : Bool
  busyboxExists : Bool
  copyOk : Bool
  installBinRes : CmdResult
  installSbinRes : CmdResult
  libCopyOk : Bool
  initWriteOk : Bool
  devPresent : List String
  devFails : List String
  findOk : Bool
  cpioOk : Bool
  writeOk : Bool
  gzipRes : CmdResult
  moveOk : Bool
deriving DecidableEq

/-- The `try:` body of `create_initramfs` (sub.py lines 770-923), returning
the exception that escapes it, if any: `mkdtemp` the staging directory; the
busybox-binary existence check (`sys.exit(1)` if missing, lines 778-780); the
staging `mkdir(exist_ok=True)` calls (always succeed); `shutil.copy2` plus
`os.chmod` of the busybox binary; two `busybox --install` invocations through
`run_command` (`check_root=False`); `find_dynamic_libraries` (which never
raises) plus the library copy loop; the `/init` script write; the device-node
loop (no per-node handler); the `find | cpio` pipeline, which explicitly
`raise`s `subprocess.CalledProcessError` on a non-zero return code (lines
904-907); the archive write; `gzip` through `run_command`; `shutil.move`. -/
def initramfsBody (o : InitOutcomes) : Option PyExc :=
  if o.mkdtempOk = false then some .ioError
  else if o.busyboxExists = false then some (.systemExit 1)
  else if o.copyOk = false then some .ioError
  else
    match run_command o.installBinRes false o.isRoot with
    | some e => some e
    | none =>
      match run_command o.installSbinRes false o.isRoot with
      | some e => some e
      | none =>
        if o.libCopyOk = false then some .ioError
        else if o.initWriteOk = false then some .ioError
        else
          match initramfsDevLoop o.devPresent o.devFails initramfsDeviceNodes with
          | some e => some e
          | none =>
            if o.findOk = false then some .calledProcessError
            else if o.cpioOk = false then some .calledProcessError
            else if o.writeOk = false then some .ioError
            else
              match run_command o.gzipRes false o.isRoot with
              | some e => some e
              | none => if o.moveOk = false then some .ioError else none

/-- `create_initramfs(...)` (sub.py lines 751-938): the euid check exits
first; a catchable exception from the body is caught by `except Exception`
(lines 925-927) and turned into `sys.exit(1)`; a `SystemExit` propagates
uncaught; the `finally:` removes the staging directory best-effort either
way.  In both non-normal cases the process terminates with a non-zero
status. -/
def create_initramfs (o : InitOutcomes) : Term :=
  if o.isRoot = false then .sysExit
  else
    match initramfsBody o with
    | none => .normal
    | some _ => .sysExit

/-- Step outcomes for `create_initramfs` where everything succeeds. -/
def initAllOk : InitOutcomes :=
  ⟨true, true, true, true, .success, .success, true, true, [], [], true, true, true,
    .success, true⟩

/-- C8 counterexample.  A single failing `os.mknod` in the initramfs staging
tree (node `console`, e.g. from missing privilege) aborts the whole build:
`create_initramfs` terminates the process instead of downgrading the failure
to a warning, while the identical outcome with no device failure completes
normally. -/
theorem c8_counterexample :
    create_initramfs { initAllOk with devFails := ["console"] } = Term.sysExit ∧
    create_initramfs initAllOk = Term.normal := by
  refine ⟨by decide, by decide⟩

/-- C8 (amended).  In `create_device_nodes` (the rootfs `/dev` table),
per-node creation failure is caught and downgraded to a printed warning and
the operation never aborts: the function returns normally for every
combination of pre-existing nodes and failing `mknod` calls, and each failing
absent node contributes its warning.  In `create_initramfs`, however, the
device-node loop has no per-node handler: a failing `mknod` raises `OSError`,
which reaches the function's outer `except Exception` handler and terminates
the build with exit status 1. -/
theorem c8_device_nodes_best_effort :
    (∀ present mknodFails, (create_device_nodes present mknodFails).2 = Term.normal) ∧
    (∀ (present mknodFails : List String) (name : String),
      name ∈ rootfsDeviceNodes.map (fun q => q.1) → name ∉ present → name ∈ mknodFails →
      name ∈ (create_device_nodes present mknodFails).1) ∧
    initramfsDevLoop [] ["console"] initramfsDeviceNodes = some PyExc.ioError ∧
    create_initramfs { initAllOk with devFails := ["console"] } = Term.sysExit := by
  refine ⟨fun _ _ => rfl, ?_, by decide, by decide⟩
  intro present mknodFails name hmem hnp hf
  simp only [rootfsDeviceNodes, List.map_cons, List.map_nil, List.mem_cons,
    List.not_mem_nil, or_false] at hmem
  rcases hmem with rfl | rfl | rfl | rfl | rfl | rfl | rfl | rfl
  · exact List.mem_filterMap.mpr ⟨("console", 5, 1, 'c'), by decide,
      by simp [deviceNodeStep, hnp, hf]⟩
  · exact List.mem_filterMap.mpr ⟨("null", 1, 3, 'c'), by decide,
      by simp [deviceNodeStep, hnp, hf]⟩
  · exact List.mem_filterMap.mpr ⟨("zero", 1, 5, 'c'), by decide,
      by simp [deviceNodeStep, hnp, hf]⟩
  · exact List.mem_filterMap.mpr ⟨("random", 1, 8, 'c'), by decide,
      by simp [deviceNodeStep, hnp, hf]⟩
  · exact List.mem_filterMap.mpr ⟨("urandom", 1, 9, 'c'), by decide,
      by simp [deviceNodeStep, hnp, hf]⟩
  · exact List.mem_filterMap.mpr ⟨("tty", 5, 0, 'c'), by decide,
      by simp [deviceNodeStep, hnp, hf]⟩
  · exact List.mem_filterMap.mpr ⟨("tty0", 4, 0, 'c'), by decide,
      by simp [deviceNodeStep, hnp, hf]⟩
  · exact List.mem_filterMap.mpr ⟨("tty1", 4, 1, 'c'), by decide,
      by simp [deviceNodeStep, hnp, hf]⟩

/-- C8 witness: the amended theorem applied with no pre-existing nodes and a
failing `console` node. -/
theorem c8_device_nodes_best_effort_witness :
    ("console" ∈ rootfsDeviceNodes.map (fun q => q.1) ∧
      "console" ∉ ([] : List String) ∧ "console" ∈ ["console"]) ∧
    "console" ∈ (create_device_nodes [] ["console"]).1 ∧
    (create_device_nodes [] ["console"]).2 = Term.normal :=
  ⟨⟨by decide, by decide, by decide⟩,
    c8_device_nodes_best_effort.2.1 [] ["console"] "console" (by decide) (by decide) (by decide),
    c8_device_nodes_best_effort.1 [] ["console"]⟩

end RootfsBuilder
